import Mathlib

/-!
Shallow embedding of the Blocknet on-chain governance engine
(`src/governance/governance.h`): proposals, votes, block extraction
(`dataFromBlock`), the chain listener (`BlockConnected` /
`BlockDisconnected`), the state store queries and the tally engine
(`getTally`), together with theorems settling the specification claims.

Modelling conventions:
* `uint256` digests are modelled as `Nat`.  The double-SHA-256 content
  digests `Proposal::getHash`, `Vote::getHash` and `Vote::sigHash` are
  modelled by injective `Nat.pair` encodings of exactly the fields the
  source streams into the hash writer; the only properties of the digest
  the source relies on are determinism, injectivity and a total order
  (`UintToArith256` comparisons), all of which the encoding provides.
* `CAmount` (int64), block heights and block times are modelled as `Int`;
  C++ `/` on nonnegative `CAmount` values is `Int.tdiv`.
* `std::map` and `std::set` are modelled as association lists / lists with
  the corresponding key semantics (`mapInsert` overwrites, `std::set`
  insert is a no-op when an element with an equivalent key is present).
  Where iteration order matters (`std::map` iterates in ascending key
  order) the model keeps the buckets sorted by key.
* External collaborators (UTXO view, address decoding, policy constants)
  enter through an explicit environment record `Env`.
-/

namespace gov

/-- Governance OP_RETURN object types (`enum Type`). -/
def NONE : Nat := 0

/-- `Type::PROPOSAL`. -/
def PROPOSAL : Nat := 1

/-- `Type::VOTE`. -/
def VOTE : Nat := 2

/-- `NETWORK_VERSION = 0x01`. -/
def NETWORK_VERSION : Nat := 1

/-- `VoteType::NO`. -/
def NO : Nat := 0

/-- `VoteType::YES`. -/
def YES : Nat := 1

/-- `VoteType::ABSTAIN`. -/
def ABSTAIN : Nat := 2

/-- `COutPoint`: transaction hash (as `Nat`) and output index. -/
structure OutPoint where
  txid : Nat
  n : Nat
deriving DecidableEq, Repr

/-- Default-constructed `COutPoint`: null hash and `n = (uint32_t) -1`. -/
def nullOutPoint : OutPoint := ⟨0, 4294967295⟩

/-- `COutPoint::IsNull`: null hash and `n == (uint32_t) -1`. -/
def OutPoint.IsNull (o : OutPoint) : Bool :=
  o.txid == 0 && o.n == 4294967295

instance : Inhabited OutPoint := ⟨nullOutPoint⟩

/-- Injective encoding of a byte/char string into `Nat`, standing in for
streaming the string into a hash writer. -/
def encStr (s : String) : Nat :=
  s.data.foldr (fun c acc => Nat.pair c.toNat acc + 1) 0

/-- Injective encoding of an `Int` into `Nat` for hashing purposes. -/
def encInt (i : Int) : Nat :=
  if 0 ≤ i then 2 * i.toNat else 2 * (-i).toNat + 1

/-- Consensus parameters consumed by the governance core
(`Consensus::Params` projection). -/
structure ConsensusParams where
  superblock : Int := 0
  proposalCutoff : Int := 0
  votingCutoff : Int := 0
  proposalMinAmount : Int := 0
  voteMinUtxoAmount : Int := 0
  voteBalance : Int := 0
  governanceBlock : Int := 0
  blockSubsidy : Int → Int := fun _ => 0

/-- External collaborator environment: address decoding (`key_io`), the
OP_RETURN relay policy constant, and the UTXO view used by
`GetKeyIDForUTXO` / `IsUTXOSpent`. -/
structure Env where
  isValidDest : String → Bool := fun _ => false
  maxOpReturnRelay : Nat := 83
  utxoInfo : OutPoint → Option (Nat × Int) := fun _ => none
  utxoSpent : OutPoint → Bool := fun _ => true

/-- `class Proposal` (serialized fields plus the memory-only
`blockNumber`). -/
structure Proposal where
  version : Nat := NETWORK_VERSION
  type : Nat := PROPOSAL
  name : String := ""
  superblock : Int := 0
  amount : Int := 0
  address : String := ""
  url : String := ""
  description : String := ""
  blockNumber : Int := 0
deriving DecidableEq, Repr

instance : Inhabited Proposal := ⟨{}⟩

/-- `Proposal::isNull`: `superblock == 0`. -/
def Proposal.isNull (p : Proposal) : Bool :=
  p.superblock == 0

/-- Word character of the classic-locale `\w` regex class:
alphanumeric or underscore. -/
def isWordChar (c : Char) : Bool :=
  c.isAlphanum || c == '_'

/-- Tail of a match of `\w+[\w- ]*\w+`: middle characters from the class
`[\w- ]`, final character a word character. -/
def nameTailOk : List Char → Bool
  | [] => false
  | [c] => isWordChar c
  | c :: rest => (isWordChar c || c == '-' || c == ' ') && nameTailOk rest

/-- `std::regex_match(name, "^\w+[\w- ]*\w+$")`: at least two characters,
word character at both ends, middle characters from `[\w- ]`. -/
def nameMatchesRegex (s : String) : Bool :=
  match s.data with
  | [] => false
  | [_] => false
  | c :: rest => isWordChar c && nameTailOk rest

/-- Length of the compact-size prefix used by the network codec. -/
def compactSizeLen (n : Nat) : Nat :=
  if n < 253 then 1 else if n < 65536 then 3 else if n < 4294967296 then 5 else 9

/-- Serialized size of a compact-size-prefixed string. -/
def serStrSize (s : String) : Nat :=
  compactSizeLen s.utf8ByteSize + s.utf8ByteSize

/-- Size of the `CDataStream` built in `Proposal::isValid`
(`version << type << name << superblock << amount << address << url <<
description`): u8, u8, string, i32, i64, string, string, string. -/
def Proposal.serialSize (p : Proposal) : Nat :=
  1 + 1 + serStrSize p.name + 4 + 8 + serStrSize p.address +
    serStrSize p.url + serStrSize p.description

/-- `Proposal::isValid`: name regex, superblock divisible by the consensus
interval, amount within `[proposalMinAmount, GetBlockSubsidy(superblock)]`,
valid payment address, correct type and version, and serialized size at
most `MAX_OP_RETURN_RELAY - 3`. -/
def Proposal.isValid (env : Env) (params : ConsensusParams) (p : Proposal) : Bool :=
  nameMatchesRegex p.name &&
  p.superblock % params.superblock == 0 &&
  (decide (params.proposalMinAmount ≤ p.amount) &&
    decide (p.amount ≤ params.blockSubsidy p.superblock)) &&
  env.isValidDest p.address &&
  p.type == PROPOSAL &&
  p.version == NETWORK_VERSION &&
  decide (p.serialSize ≤ env.maxOpReturnRelay - 3)

/-- `Proposal::getHash`: digest of
`version << type << name << superblock << amount << address << url <<
description`, modelled as a nested injective pairing. -/
def Proposal.getHash (p : Proposal) : Nat :=
  Nat.pair p.version (Nat.pair p.type (Nat.pair (encStr p.name)
    (Nat.pair (encInt p.superblock) (Nat.pair (encInt p.amount)
      (Nat.pair (encStr p.address) (Nat.pair (encStr p.url)
        (encStr p.description)))))))

/-- `class Vote` (serialized fields plus the memory-only `pubkey` key id,
OP_RETURN `outpoint`, block `time`, utxo `amount`, utxo `keyid` and
`blockNumber`).  The recovered public key and the utxo's controlling key
are modelled by their 160-bit key ids as `Nat` (0 = null `CKeyID`). -/
structure Vote where
  version : Nat := NETWORK_VERSION
  type : Nat := VOTE
  proposal : Nat := 0
  vote : Nat := ABSTAIN
  signature : List Nat := []
  utxo : OutPoint := nullOutPoint
  pubkeyId : Nat := 0
  outpoint : OutPoint := nullOutPoint
  time : Int := 0
  amount : Int := 0
  keyid : Nat := 0
  blockNumber : Int := 0
deriving DecidableEq, Repr

instance : Inhabited Vote := ⟨{}⟩

/-- `Vote::isValidVoteType`: `voteType >= NO && voteType <= ABSTAIN`
(the lower bound is trivial on an unsigned byte). -/
def isValidVoteType (voteType : Nat) : Bool :=
  voteType ≤ ABSTAIN

/-- `Vote::getHash`: digest of `version << type << proposal << utxo` —
the `vote` selector is deliberately excluded. -/
def Vote.getHash (v : Vote) : Nat :=
  Nat.pair v.version (Nat.pair v.type (Nat.pair v.proposal
    (Nat.pair v.utxo.txid v.utxo.n)))

/-- `Vote::sigHash`: digest of `version << type << proposal << vote <<
utxo` — includes the `vote` selector. -/
def Vote.sigHash (v : Vote) : Nat :=
  Nat.pair v.version (Nat.pair v.type (Nat.pair v.proposal
    (Nat.pair v.vote (Nat.pair v.utxo.txid v.utxo.n))))

/-- `Vote::isNull`: null voting utxo. -/
def Vote.isNull (v : Vote) : Bool :=
  v.utxo.IsNull

/-- `Vote::isValid`: version/type/vote-type check, utxo amount at least
`voteMinUtxoAmount`, non-null utxo key id, signature pubkey matching the
utxo key id, and the utxo not spent (`IsUTXOSpent`). -/
def Vote.isValid (env : Env) (params : ConsensusParams) (v : Vote) : Bool :=
  if !(v.version == NETWORK_VERSION && v.type == VOTE && isValidVoteType v.vote) then false
  else if decide (v.amount < params.voteMinUtxoAmount) then false
  else if v.keyid == 0 then false
  else if !(v.pubkeyId == v.keyid) then false
  else if env.utxoSpent v.utxo then false
  else true

/-- `Vote::voteTypeToString`: the returned string together with the final
value of the `valid` out-flag.  The source's out-of-range branch writes
`false` into the flag, but the following unconditional
`if (valid) *valid = true;` overwrites it before returning. -/
def voteTypeToString (voteType : Nat) (valid : Bool) : String × Bool :=
  let r :=
    if voteType == YES then ("yes", valid)
    else if voteType == NO then ("no", valid)
    else if voteType == ABSTAIN then ("abstain", valid)
    else ("", false)
  (r.1, true)

/-- Wire image of a vote payload: the serialized fields together with the
key id of the public key recovered from the compact signature (the source
recovers `pubkey` as a deserialization side effect). -/
structure VoteWire where
  version : Nat := NETWORK_VERSION
  type : Nat := VOTE
  proposal : Nat := 0
  vote : Nat := ABSTAIN
  utxo : OutPoint := nullOutPoint
  signature : List Nat := []
  pubkeyId : Nat := 0
deriving DecidableEq, Repr

/-- Deserializing a vote found at OP_RETURN outpoint `op` in a block with
time `btime` at height `bnum`: `Vote(outpoint, time, blockNumber)` followed
by `ss >> vote`, whose read path recovers the pubkey and runs `loadKeyID`
(`GetKeyIDForUTXO` fills `keyid` and `amount` when the utxo resolves). -/
def voteFromWire (env : Env) (w : VoteWire) (op : OutPoint) (btime : Int)
    (bnum : Int) : Vote :=
  let base : Vote :=
    { version := w.version, type := w.type, proposal := w.proposal,
      vote := w.vote, signature := w.signature, utxo := w.utxo,
      pubkeyId := w.pubkeyId, outpoint := op, time := btime,
      blockNumber := bnum }
  match env.utxoInfo w.utxo with
  | some kidAmt => { base with keyid := kidAmt.1, amount := kidAmt.2 }
  | none => base

/-- A successfully parsed OP_RETURN governance payload, already routed by
the leading `NetworkObject` type byte. -/
inductive GovPayload where
  | propPayload (p : Proposal)
  | votePayload (w : VoteWire)
deriving DecidableEq, Repr

/-- A transaction input: its prevout, and the key id of the first
pubkey-sized data push of its `scriptSig` if any (what
`matchesVinPubKey` extracts). -/
structure TxIn where
  prevout : OutPoint := nullOutPoint
  pubkeyId : Option Nat := none
deriving DecidableEq, Repr

/-- A transaction: id, coinbase flag, inputs, and per-output parsed
OP_RETURN governance payload (`none` for non-OP_RETURN outputs, empty
data pushes and codec failures, which the source silently skips). -/
structure Tx where
  txid : Nat := 0
  isCoinBase : Bool := false
  vin : List TxIn := []
  vout : List (Option GovPayload) := []
deriving DecidableEq, Repr

/-- A block: transactions and `GetBlockTime()`. -/
structure Block where
  vtx : List Tx := []
  blockTime : Int := 0
deriving DecidableEq, Repr

/-- The governance state store: `proposals` and `votes`, each a
`std::map` keyed by object hash (association list model). -/
structure GovState where
  proposals : List (Nat × Proposal) := []
  votes : List (Nat × Vote) := []
deriving Repr

/-- `std::map` lookup by key (`find`): the first mapping for the key. -/
def mapLookup {α : Type} (m : List (Nat × α)) (k : Nat) : Option α :=
  match m with
  | [] => none
  | kv :: t => if kv.1 == k then some kv.2 else mapLookup t k

/-- `std::map::count` for a key. -/
def mapCount {α : Type} (m : List (Nat × α)) (k : Nat) : Nat :=
  m.countP (fun kv => kv.1 == k)

/-- `std::map` assignment `m[k] = v`: overwrite the existing mapping for
`k`, else add one. -/
def mapInsert {α : Type} (m : List (Nat × α)) (k : Nat) (v : α) :
    List (Nat × α) :=
  match m with
  | [] => [(k, v)]
  | kv :: t => if kv.1 == k then (k, v) :: t else kv :: mapInsert t k v

/-- `std::map::erase` by key. -/
def mapErase {α : Type} (m : List (Nat × α)) (k : Nat) : List (Nat × α) :=
  m.filter (fun kv => kv.1 != k)

/-- `std::map::operator[]` with a default: returns the mapped value,
default-inserting when the key is absent. -/
def mapIndex {α : Type} (m : List (Nat × α)) (k : Nat) (dflt : α) :
    α × List (Nat × α) :=
  match mapLookup m k with
  | some v => (v, m)
  | none => (dflt, m ++ [(k, dflt)])

/-- `Governance::getProposal`: under the store lock, return the mapped
proposal when `proposals.count(hash) > 0`, else a default-constructed
`Proposal`; the resulting store accompanies the value. -/
def Governance.getProposal (g : GovState) (hash : Nat) : Proposal × GovState :=
  if 0 < mapCount g.proposals hash then
    let r := mapIndex g.proposals hash {}
    (r.1, { g with proposals := r.2 })
  else ({}, g)

/-- `Governance::getVote`: under the store lock, return the mapped vote
when `votes.count(hash) > 0`, else a default-constructed `Vote`. -/
def Governance.getVote (g : GovState) (hash : Nat) : Vote × GovState :=
  if 0 < mapCount g.votes hash then
    let r := mapIndex g.votes hash {}
    (r.1, { g with votes := r.2 })
  else ({}, g)

/-- `Governance::meetsCutoff` for proposals:
`blockNumber <= superblock - proposalCutoff`. -/
def Governance.meetsCutoffProposal (proposal : Proposal) (blockNumber : Int)
    (params : ConsensusParams) : Bool :=
  decide (blockNumber ≤ proposal.superblock - params.proposalCutoff)

/-- `Governance::meetsCutoff` for votes: the referenced proposal must
exist in the store (`getProposal` not null), and
`blockNumber <= superblock - votingCutoff`. -/
def Governance.meetsCutoffVote (g : GovState) (vote : Vote) (blockNumber : Int)
    (params : ConsensusParams) : Bool :=
  let proposal := (Governance.getProposal g vote.proposal).1
  if proposal.isNull then false
  else decide (blockNumber ≤ proposal.superblock - params.votingCutoff)

/-- `Governance::matchesVinPubKey`: the first pubkey-sized push of the
input's `scriptSig` must hash to the vote signature's key id. -/
def Governance.matchesVinPubKey (vote : Vote) (vin : TxIn) : Bool :=
  match vin.pubkeyId with
  | some kid => kid == vote.pubkeyId
  | none => false

/-- `std::set<Proposal>::insert`: a no-op when an element with the same
key (`Proposal::operator<` compares `getHash`) is present. -/
def setInsertProposal (s : List Proposal) (p : Proposal) : List Proposal :=
  if s.any (fun q => q.getHash == p.getHash) then s else s ++ [p]

/-- `std::set<Vote>::insert`: a no-op when an element with the same key
(`Vote::operator<` compares `getHash`) is present. -/
def setInsertVote (s : List Vote) (v : Vote) : List Vote :=
  if s.any (fun w => w.getHash == v.getHash) then s else s ++ [v]

/-- The same-block vote merge of `dataFromBlock`: when a vote with the
same `getHash` is present and the new vote's `sigHash` is larger, the
source calls `votesRet.insert(...)` — which, the key being occupied, does
not replace the stored element. -/
def dataFromBlockMergeVote (s : List Vote) (v : Vote) : List Vote :=
  match s.find? (fun w => w.getHash == v.getHash) with
  | some w => if w.sigHash < v.sigHash then setInsertVote s v else s
  | none => setInsertVote s v

/-- The candidate payload stream of a block in source order: every parsed
OP_RETURN payload of every output of every non-coinbase transaction,
tagged with its transaction and output index. -/
def blockCandidates (block : Block) : List (Tx × Nat × GovPayload) :=
  (block.vtx.filter (fun tx => !tx.isCoinBase)).flatMap (fun tx =>
    tx.vout.enum.filterMap (fun no => no.2.map (fun pl => (tx, no.1, pl))))

/-- Proposal half of one `dataFromBlock` candidate step: route by the
`NetworkObject` version/type, stamp `blockNumber`, check `isValid` and
(when a block index is supplied) the proposal cutoff, and set-insert. -/
def dataFromBlockStepP (env : Env) (params : ConsensusParams)
    (blockIndex : Option Int) (ps : List Proposal)
    (cand : Tx × Nat × GovPayload) : List Proposal :=
  match cand.2.2 with
  | .propPayload pw =>
    if pw.version == NETWORK_VERSION && pw.type == PROPOSAL then
      let proposal := { pw with blockNumber := blockIndex.getD 0 }
      if proposal.isValid env params &&
          (match blockIndex with
           | none => true
           | some h => Governance.meetsCutoffProposal proposal h params) then
        setInsertProposal ps proposal
      else ps
    else ps
  | .votePayload _ => ps

/-- Vote half of one `dataFromBlock` candidate step: route by version and
type, deserialize at the output's outpoint with the block time and height,
reject invalid votes and (when a block index is supplied) votes past the
voting cutoff, require a matching vin pubkey, then merge. -/
def dataFromBlockStepV (g : GovState) (env : Env) (params : ConsensusParams)
    (btime : Int) (blockIndex : Option Int) (vs : List Vote)
    (cand : Tx × Nat × GovPayload) : List Vote :=
  match cand with
  | (tx, n, .votePayload w) =>
    if w.version == NETWORK_VERSION && w.type == VOTE then
      let vote := voteFromWire env w ⟨tx.txid, n⟩ btime (blockIndex.getD 0)
      if !(vote.isValid env params) ||
          (match blockIndex with
           | some h => !(Governance.meetsCutoffVote g vote h params)
           | none => false) then vs
      else if tx.vin.any (fun vin => Governance.matchesVinPubKey vote vin) then
        dataFromBlockMergeVote vs vote
      else vs
    else vs
  | (_, _, .propPayload _) => vs

/-- `Governance::dataFromBlock`: one pass over the block's candidate
payloads, accumulating the proposal set and the vote set.  The vote
cutoff consults the (singleton) store `g`. -/
def Governance.dataFromBlock (g : GovState) (env : Env)
    (params : ConsensusParams) (block : Block) (blockIndex : Option Int) :
    List Proposal × List Vote :=
  (blockCandidates block).foldl
    (fun acc cand =>
      (dataFromBlockStepP env params blockIndex acc.1 cand,
       dataFromBlockStepV g env params block.blockTime blockIndex acc.2 cand))
    ([], [])

/-- The union of all input prevouts over all transactions of a block
(the spent-utxo set collected by `BlockConnected`). -/
def blockPrevouts (block : Block) : List OutPoint :=
  block.vtx.foldl
    (fun s tx => tx.vin.foldl
      (fun s2 vin => if s2.contains vin.prevout then s2 else s2 ++ [vin.prevout])
      s)
    []

/-- The per-vote merge step of `Governance::BlockConnected`: skip votes
whose proposal is not in the (updated) proposal map; when an entry with
the same hash exists, replace it when the new vote's time is strictly
greater, or else when its `sigHash` is strictly greater; otherwise
insert. -/
def blockConnectedVoteStep (proposals1 : List (Nat × Proposal))
    (m : List (Nat × Vote)) (vote : Vote) : List (Nat × Vote) :=
  if mapCount proposals1 vote.proposal == 0 then m
  else
    match mapLookup m vote.getHash with
    | some existing =>
      if existing.time < vote.time then mapInsert m vote.getHash vote
      else if existing.sigHash < vote.sigHash then mapInsert m vote.getHash vote
      else m
    | none => mapInsert m vote.getHash vote

/-- `Governance::BlockConnected`: extract with cutoffs enabled, insert
proposals by hash, merge votes (skipping votes without a known proposal),
then erase every vote whose utxo appears among the block's input
prevouts — all in one critical section. -/
def Governance.BlockConnected (g : GovState) (env : Env)
    (params : ConsensusParams) (block : Block) (height : Int) : GovState :=
  let pv := Governance.dataFromBlock g env params block (some height)
  let proposals1 := pv.1.foldl (fun m p => mapInsert m p.getHash p) g.proposals
  let votes1 := pv.2.foldl (blockConnectedVoteStep proposals1) g.votes
  let votes2 := votes1.filter (fun kv => !((blockPrevouts block).contains kv.2.utxo))
  { proposals := proposals1, votes := votes2 }

/-- `Governance::BlockDisconnected`: extract with the cutoff check
disabled and erase every extracted proposal and vote by hash. -/
def Governance.BlockDisconnected (g : GovState) (env : Env)
    (params : ConsensusParams) (block : Block) : GovState :=
  let pv := Governance.dataFromBlock g env params block none
  { proposals := pv.1.foldl (fun m p => mapErase m p.getHash) g.proposals,
    votes := pv.2.foldl (fun m v => mapErase m v.getHash) g.votes }

/-- `struct Tally`. -/
structure Tally where
  cyes : Int := 0
  cno : Int := 0
  cabstain : Int := 0
  yes : Int := 0
  no : Int := 0
  abstain : Int := 0
deriving DecidableEq, Repr

instance : Inhabited Tally := ⟨{}⟩

/-- Insert a vote into a `std::map<uint256, std::set<Vote>>` bucket map
kept in ascending key order (the iteration order of `std::map`). -/
def bucketInsertSorted (m : List (Nat × List Vote)) (k : Nat) (v : Vote) :
    List (Nat × List Vote) :=
  match m with
  | [] => [(k, [v])]
  | kv :: rest =>
    if k < kv.1 then (k, [v]) :: kv :: rest
    else if k == kv.1 then (kv.1, setInsertVote kv.2 v) :: rest
    else kv :: bucketInsertSorted rest k v

/-- `std::map<CTxDestination, std::set<Vote>>::operator[]` read: mapped
bucket, or an empty set when absent. -/
def bucketGet (m : List (Nat × List Vote)) (k : Nat) : List Vote :=
  (mapLookup m k).getD []

/-- One identity group step of `getTally`: union the votes of a
`userVotes` bucket with the destination buckets of its members, drop
already-counted votes, and when something remains mark it counted and
emit a subtally whose integer counts floor-divide the summed amounts by
`voteBalance`. -/
def getTallyStep (params : ConsensusParams)
    (userVotesDest : List (Nat × List Vote))
    (acc : List Vote × List Tally) (item : Nat × List Vote) :
    List Vote × List Tally :=
  let base := item.2.foldl setInsertVote []
  let allUnique := item.2.foldl
    (fun s v => (bucketGet userVotesDest v.pubkeyId).foldl setInsertVote s) base
  let remaining := allUnique.filter
    (fun v => !(acc.1.any (fun w => w.getHash == v.getHash)))
  if remaining.isEmpty then acc
  else
    let counted2 := remaining.foldl setInsertVote acc.1
    let t0 := remaining.foldl
      (fun (t : Tally) v =>
        if v.vote == YES then { t with cyes := t.cyes + v.amount }
        else if v.vote == NO then { t with cno := t.cno + v.amount }
        else if v.vote == ABSTAIN then { t with cabstain := t.cabstain + v.amount }
        else t) {}
    let t1 := { t0 with yes := Int.tdiv t0.cyes params.voteBalance,
                        no := Int.tdiv t0.cno params.voteBalance,
                        abstain := Int.tdiv t0.cabstain params.voteBalance }
    (counted2, acc.2 ++ [t1])

/-- The per-identity subtallies produced by `Governance::getTally`:
restrict to the proposal's votes, bucket them by the OP_RETURN
transaction hash and by the recovered-pubkey destination, then walk the
transaction buckets in ascending key order maintaining the global
`counted` set. -/
def Governance.getTallies (proposal : Nat) (votes : List Vote)
    (params : ConsensusParams) : List Tally :=
  let proposalVotes := votes.filter (fun v => proposal == v.proposal)
  let userVotes := proposalVotes.foldl
    (fun m v => bucketInsertSorted m v.outpoint.txid v) []
  let userVotesDest := proposalVotes.foldl
    (fun m v => bucketInsertSorted m v.pubkeyId v) []
  (userVotes.foldl (getTallyStep params userVotesDest) ([], [])).2

/-- Componentwise sum of two tallies (the final accumulation loop of
`getTally`). -/
def Tally.add (f : Tally) (t : Tally) : Tally :=
  { yes := f.yes + t.yes, no := f.no + t.no, abstain := f.abstain + t.abstain,
    cyes := f.cyes + t.cyes, cno := f.cno + t.cno,
    cabstain := f.cabstain + t.cabstain }

/-- `Governance::getTally`: sum the per-identity subtallies. -/
def Governance.getTally (proposal : Nat) (votes : List Vote)
    (params : ConsensusParams) : Tally :=
  (Governance.getTallies proposal votes params).foldl Tally.add {}

/-- A vote set has an element with the given hash key. -/
def hashMemV (k : Nat) (s : List Vote) : Prop :=
  ∃ v ∈ s, v.getHash = k

/-- A proposal set has an element with the given hash key. -/
def hashMemP (k : Nat) (s : List Proposal) : Prop :=
  ∃ p ∈ s, p.getHash = k

/-! ### Concrete test fixtures used by the claim theorems -/

/-- A small consensus parameter set (interval 10, cutoffs 2,
`voteBalance` 100, `voteMinUtxoAmount` 10, flat subsidy 5). -/
def exParams : ConsensusParams :=
  { superblock := 10, proposalCutoff := 2, votingCutoff := 2,
    proposalMinAmount := 0, voteMinUtxoAmount := 10, voteBalance := 100,
    governanceBlock := 0, blockSubsidy := fun _ => 5 }

/-- An environment where every address decodes, the relay bound is the
standard 83 bytes, utxo `(5, 0)` resolves to key id 7 with value 100,
and nothing is spent. -/
def exEnv : Env :=
  { isValidDest := fun _ => true, maxOpReturnRelay := 83,
    utxoInfo := fun o => if o == ⟨5, 0⟩ then some (7, 100) else none,
    utxoSpent := fun _ => false }

/-- A stored proposal targeting superblock 20 (hash key 99 in the
fixtures, so that vote cutoff checks find it). -/
def p20 : Proposal := { superblock := 20 }

/-- Store holding only `p20` under key 99. -/
def c1Store : GovState := { proposals := [(99, p20)], votes := [] }

/-- Wire vote on proposal 99 from utxo `(5, 0)` (key id 7), selector NO. -/
def c1w0 : VoteWire :=
  { proposal := 99, vote := NO, utxo := ⟨5, 0⟩, pubkeyId := 7 }

/-- Same vote with selector YES — same `getHash`, larger `sigHash`. -/
def c1w1 : VoteWire := { c1w0 with vote := YES }

/-- Block carrying both conflicting votes in one transaction, the
NO-selector vote first. -/
def c1Block : Block :=
  { vtx := [ { txid := 40, isCoinBase := false,
               vin := [ { prevout := ⟨50, 0⟩, pubkeyId := some 7 } ],
               vout := [some (.votePayload c1w0), some (.votePayload c1w1)] } ],
    blockTime := 1 }

/-- An already-stored vote with selector NO and block time 2. -/
def c2Exist : Vote := voteFromWire exEnv c1w0 ⟨30, 0⟩ 2 1

/-- Store holding proposal 99 and the existing time-2 vote. -/
def c2Store : GovState :=
  { proposals := [(99, p20)], votes := [(c2Exist.getHash, c2Exist)] }

/-- Block with time 1 carrying the YES-selector change of the same vote. -/
def c2Block : Block :=
  { vtx := [ { txid := 41, isCoinBase := false,
               vin := [ { prevout := ⟨50, 0⟩, pubkeyId := some 7 } ],
               vout := [some (.votePayload c1w1)] } ],
    blockTime := 1 }

/-- A YES vote of amount 150 from one identity (tx 1, key 1). -/
def c3v1 : Vote :=
  { proposal := 7, vote := YES, utxo := ⟨10, 0⟩, pubkeyId := 1,
    outpoint := ⟨1, 0⟩, amount := 150, keyid := 1 }

/-- A YES vote of amount 150 from an unlinked identity (tx 2, key 2). -/
def c3v2 : Vote :=
  { proposal := 7, vote := YES, utxo := ⟨11, 0⟩, pubkeyId := 2,
    outpoint := ⟨2, 0⟩, amount := 150, keyid := 2 }

/-- A proposal whose `superblock` field is 0 but which passes every other
`isValid` check under `exEnv`/`exParams`. -/
def c4Prop : Proposal := { name := "ab", superblock := 0, amount := 1 }

/-- A fully valid proposal targeting superblock 20. -/
def c4ValidProp : Proposal := { name := "ab", superblock := 20, amount := 1 }

/-- A default vote stored under key 1 (for the spend-removal witness). -/
def c5v : Vote := {}

/-- Store holding only the vote `c5v`. -/
def c5Store : GovState := { proposals := [], votes := [(1, c5v)] }

/-- A default vote (selector ABSTAIN) for the hash-stability witness. -/
def c6v : Vote := {}

/-- A valid proposal payload for the reorg-symmetry witness. -/
def c7Prop : Proposal := { name := "ab", superblock := 20, amount := 1 }

/-- Block carrying the proposal payload `c7Prop`. -/
def c7Block : Block :=
  { vtx := [ { txid := 60, isCoinBase := false,
               vin := [ { prevout := ⟨50, 0⟩ } ],
               vout := [some (.propPayload c7Prop)] } ],
    blockTime := 4 }

/-- A vote referencing the stored proposal 99 (for cutoff monotonicity). -/
def c8v : Vote := { proposal := 99 }

/-! ### Association-list and set helper lemmas -/

theorem mapLookup_mem {β : Type} {m : List (Nat × β)} {k : Nat} {v : β}
    (h : mapLookup m k = some v) : (k, v) ∈ m := by
  induction m with
  | nil => simp [mapLookup] at h
  | cons kv t ih =>
    by_cases hk : kv.1 = k
    · simp [mapLookup, hk] at h
      subst h
      rw [← hk]
      exact List.mem_cons_self _ _
    · simp [mapLookup, hk] at h
      exact List.mem_cons_of_mem _ (ih h)

theorem mapLookup_ne_none_iff {β : Type} {m : List (Nat × β)} {k : Nat} :
    mapLookup m k ≠ none ↔ ∃ v, (k, v) ∈ m := by
  constructor
  · intro h
    cases hl : mapLookup m k with
    | none => exact absurd hl h
    | some v => exact ⟨v, mapLookup_mem hl⟩
  · rintro ⟨v, hv⟩
    induction m with
    | nil => simp at hv
    | cons kv t ih =>
      rcases List.mem_cons.mp hv with heq | htail
      · rw [← heq]
        simp [mapLookup]
      · by_cases hk : kv.1 = k
        · simp [mapLookup, hk]
        · simpa [mapLookup, hk] using ih htail

theorem mapLookup_none_mapCount {β : Type} (m : List (Nat × β)) (k : Nat)
    (h : mapLookup m k = none) : mapCount m k = 0 := by
  induction m with
  | nil => rfl
  | cons kv t ih =>
    by_cases hk : kv.1 = k
    · simp [mapLookup, hk] at h
    · simp [mapLookup, hk] at h
      simp [mapCount, List.countP_cons, hk] at ih ⊢
      exact ih h

theorem mapLookup_mapInsert_ne {β : Type} (m : List (Nat × β)) (k k' : Nat)
    (v : β) (hne : k ≠ k') :
    mapLookup (mapInsert m k' v) k = mapLookup m k := by
  induction m with
  | nil => simp [mapInsert, mapLookup, Ne.symm hne]
  | cons kv t ih =>
    by_cases ha : kv.1 = k'
    · simp only [mapInsert, ha, beq_self_eq_true, if_pos]
      simp [mapLookup, Ne.symm hne, ha]
    · have hb : (kv.1 == k') = false := beq_eq_false_iff_ne.mpr ha
      simp only [mapInsert, hb, Bool.false_eq_true, if_false]
      by_cases hk : kv.1 = k
      · simp [mapLookup, hk]
      · simp [mapLookup, hk, ih]

theorem mapLookup_mapErase_self {β : Type} (m : List (Nat × β)) (k : Nat) :
    mapLookup (mapErase m k) k = none := by
  induction m with
  | nil => rfl
  | cons kv t ih =>
    unfold mapErase at ih ⊢
    rw [List.filter_cons]
    by_cases ha : kv.1 = k
    · simpa [ha] using ih
    · have hb : (kv.1 != k) = true := by simp [ha]
      rw [if_pos hb]
      simp [mapLookup, ha, ih]

theorem mapLookup_mapErase_none {β : Type} (m : List (Nat × β)) (k k' : Nat)
    (h : mapLookup m k = none) : mapLookup (mapErase m k') k = none := by
  induction m with
  | nil => rfl
  | cons kv t ih =>
    by_cases hk : kv.1 = k
    · simp [mapLookup, hk] at h
    · simp [mapLookup, hk] at h
      unfold mapErase
      rw [List.filter_cons]
      by_cases ha : (kv.1 != k') = true
      · simp only [ha, if_pos]
        simpa [mapLookup, hk] using ih h
      · simp only [ha, if_neg]
        exact ih h

theorem foldl_mapErase_none {α β : Type} (f : α → Nat) (l : List α)
    (m : List (Nat × β)) (k : Nat) (h : mapLookup m k = none) :
    mapLookup (l.foldl (fun m2 x => mapErase m2 (f x)) m) k = none := by
  induction l generalizing m with
  | nil => exact h
  | cons x t ih => exact ih _ (mapLookup_mapErase_none m k (f x) h)

theorem foldl_mapErase_hit {α β : Type} (f : α → Nat) (l : List α)
    (m : List (Nat × β)) (k : Nat) (h : ∃ x ∈ l, f x = k) :
    mapLookup (l.foldl (fun m2 x => mapErase m2 (f x)) m) k = none := by
  induction l generalizing m with
  | nil => simp at h
  | cons x t ih =>
    obtain ⟨y, hy, hfy⟩ := h
    rcases List.mem_cons.mp hy with heq | htail
    · subst heq
      by_cases ht : ∃ z ∈ t, f z = k
      · exact ih _ ht
      · rw [List.foldl_cons]
        apply foldl_mapErase_none
        rw [← hfy]
        exact mapLookup_mapErase_self m (f y)
    · exact ih _ ⟨y, htail, hfy⟩

theorem foldl_insertLike_lookup {α β : Type} (f : α → Nat)
    (step : List (Nat × β) → α → List (Nat × β))
    (hstep : ∀ m x, step m x = m ∨ ∃ v, step m x = mapInsert m (f x) v)
    (l : List α) (m : List (Nat × β)) (k : Nat)
    (h : mapLookup (l.foldl step m) k ≠ none) :
    mapLookup m k ≠ none ∨ ∃ x ∈ l, f x = k := by
  induction l generalizing m with
  | nil => exact Or.inl h
  | cons x t ih =>
    rw [List.foldl_cons] at h
    rcases ih (step m x) h with h1 | h2
    · rcases hstep m x with he | ⟨v, he⟩
      · rw [he] at h1
        exact Or.inl h1
      · by_cases hk : k = f x
        · exact Or.inr ⟨x, List.mem_cons_self _ _, hk.symm⟩
        · rw [he, mapLookup_mapInsert_ne m k (f x) v hk] at h1
          exact Or.inl h1
    · obtain ⟨y, hy, hfy⟩ := h2
      exact Or.inr ⟨y, List.mem_cons_of_mem _ hy, hfy⟩

theorem foldl_pair {α β γ : Type} (l : List γ) (f : α → γ → α)
    (g : β → γ → β) (a : α) (b : β) :
    l.foldl (fun acc c => (f acc.1 c, g acc.2 c)) (a, b) =
      (l.foldl f a, l.foldl g b) := by
  induction l generalizing a b with
  | nil => rfl
  | cons c t ih => exact ih (f a c) (g b c)

/-- `dataFromBlock` computes its two sets independently. -/
theorem dataFromBlock_eq_pair (g : GovState) (env : Env)
    (params : ConsensusParams) (block : Block) (blockIndex : Option Int) :
    Governance.dataFromBlock g env params block blockIndex =
      ((blockCandidates block).foldl (dataFromBlockStepP env params blockIndex) [],
       (blockCandidates block).foldl
         (dataFromBlockStepV g env params block.blockTime blockIndex) []) := by
  unfold Governance.dataFromBlock
  exact foldl_pair _ _ _ [] []

/-! ### Set-insert and merge lemmas -/

theorem setInsertVote_hashMem_mono {k : Nat} {s : List Vote} (v : Vote)
    (h : hashMemV k s) : hashMemV k (setInsertVote s v) := by
  obtain ⟨w, hw, hwk⟩ := h
  unfold setInsertVote
  by_cases hc : s.any (fun w2 => w2.getHash == v.getHash) = true
  · exact ⟨w, by simp [hc, hw], hwk⟩
  · exact ⟨w, by simp [hc]; exact Or.inl hw, hwk⟩

theorem setInsertVote_hashMem_self (s : List Vote) (v : Vote) :
    hashMemV v.getHash (setInsertVote s v) := by
  unfold setInsertVote
  by_cases hc : s.any (fun w2 => w2.getHash == v.getHash) = true
  · obtain ⟨w, hw, hwk⟩ := List.any_eq_true.mp hc
    exact ⟨w, by simp [hc, hw], by simpa using hwk⟩
  · exact ⟨v, by simp [hc], rfl⟩

theorem setInsertVote_hashMem_cases {k : Nat} {s : List Vote} {v : Vote}
    (h : hashMemV k (setInsertVote s v)) : hashMemV k s ∨ k = v.getHash := by
  obtain ⟨w, hw, hwk⟩ := h
  unfold setInsertVote at hw
  by_cases hc : s.any (fun w2 => w2.getHash == v.getHash) = true
  · simp only [hc, if_pos] at hw
    exact Or.inl ⟨w, hw, hwk⟩
  · simp only [hc, if_neg, Bool.false_eq_true, not_false_iff] at hw
    rcases List.mem_append.mp hw with hin | hone
    · exact Or.inl ⟨w, hin, hwk⟩
    · simp at hone
      subst hone
      exact Or.inr hwk.symm

theorem mergeVote_hashMem_self (s : List Vote) (v : Vote) :
    hashMemV v.getHash (dataFromBlockMergeVote s v) := by
  unfold dataFromBlockMergeVote
  cases hf : s.find? (fun w => w.getHash == v.getHash) with
  | some w =>
    have hwmem := List.mem_of_find?_eq_some hf
    have hwk : w.getHash = v.getHash := by simpa using List.find?_some hf
    by_cases hlt : w.sigHash < v.sigHash
    · simp only [hlt, if_pos]
      exact setInsertVote_hashMem_mono v ⟨w, hwmem, hwk⟩
    · simp only [hlt, if_neg]
      exact ⟨w, hwmem, hwk⟩
  | none => exact setInsertVote_hashMem_self s v

theorem mergeVote_hashMem_mono {k : Nat} {s : List Vote} (v : Vote)
    (h : hashMemV k s) : hashMemV k (dataFromBlockMergeVote s v) := by
  unfold dataFromBlockMergeVote
  cases hf : s.find? (fun w => w.getHash == v.getHash) with
  | some w =>
    by_cases hlt : w.sigHash < v.sigHash
    · simp only [hlt, if_pos]
      exact setInsertVote_hashMem_mono v h
    · simp only [hlt, if_neg]
      exact h
  | none => exact setInsertVote_hashMem_mono v h

theorem mergeVote_hashMem_cases {k : Nat} {s : List Vote} {v : Vote}
    (h : hashMemV k (dataFromBlockMergeVote s v)) :
    hashMemV k s ∨ k = v.getHash := by
  unfold dataFromBlockMergeVote at h
  cases hf : s.find? (fun w => w.getHash == v.getHash) with
  | some w =>
    rw [hf] at h
    by_cases hlt : w.sigHash < v.sigHash
    · simp only [hlt, if_pos] at h
      exact setInsertVote_hashMem_cases h
    · simp only [hlt, if_neg] at h
      exact Or.inl h
  | none =>
    rw [hf] at h
    exact setInsertVote_hashMem_cases h

theorem setInsertProposal_hashMem_mono {k : Nat} {s : List Proposal}
    (p : Proposal) (h : hashMemP k s) : hashMemP k (setInsertProposal s p) := by
  obtain ⟨q, hq, hqk⟩ := h
  unfold setInsertProposal
  by_cases hc : s.any (fun q2 => q2.getHash == p.getHash) = true
  · exact ⟨q, by simp [hc, hq], hqk⟩
  · exact ⟨q, by simp [hc]; exact Or.inl hq, hqk⟩

theorem setInsertProposal_hashMem_self (s : List Proposal) (p : Proposal) :
    hashMemP p.getHash (setInsertProposal s p) := by
  unfold setInsertProposal
  by_cases hc : s.any (fun q2 => q2.getHash == p.getHash) = true
  · obtain ⟨q, hq, hqk⟩ := List.any_eq_true.mp hc
    exact ⟨q, by simp [hc, hq], by simpa using hqk⟩
  · exact ⟨p, by simp [hc], rfl⟩

theorem setInsertProposal_hashMem_cases {k : Nat} {s : List Proposal}
    {p : Proposal} (h : hashMemP k (setInsertProposal s p)) :
    hashMemP k s ∨ k = p.getHash := by
  obtain ⟨q, hq, hqk⟩ := h
  unfold setInsertProposal at hq
  by_cases hc : s.any (fun q2 => q2.getHash == p.getHash) = true
  · simp only [hc, if_pos] at hq
    exact Or.inl ⟨q, hq, hqk⟩
  · simp only [hc, if_neg, Bool.false_eq_true, not_false_iff] at hq
    rcases List.mem_append.mp hq with hin | hone
    · exact Or.inl ⟨q, hin, hqk⟩
    · simp at hone
      subst hone
      exact Or.inr hqk.symm

/-! ### `voteFromWire` only depends on the outpoint, time and height
through the memory-only fields excluded from hashing and validity -/

theorem voteFromWire_getHash (env : Env) (w : VoteWire) (op op' : OutPoint)
    (t t' bn bn' : Int) :
    (voteFromWire env w op t bn).getHash = (voteFromWire env w op' t' bn').getHash := by
  unfold voteFromWire
  cases env.utxoInfo w.utxo <;> rfl

theorem voteFromWire_sigHash (env : Env) (w : VoteWire) (op op' : OutPoint)
    (t t' bn bn' : Int) :
    (voteFromWire env w op t bn).sigHash = (voteFromWire env w op' t' bn').sigHash := by
  unfold voteFromWire
  cases env.utxoInfo w.utxo <;> rfl

theorem voteFromWire_pubkeyId (env : Env) (w : VoteWire) (op : OutPoint)
    (t bn : Int) : (voteFromWire env w op t bn).pubkeyId = w.pubkeyId := by
  unfold voteFromWire
  cases env.utxoInfo w.utxo <;> rfl

theorem voteFromWire_isValid (env : Env) (params : ConsensusParams)
    (w : VoteWire) (op op' : OutPoint) (t t' bn bn' : Int) :
    (voteFromWire env w op t bn).isValid env params =
      (voteFromWire env w op' t' bn').isValid env params := by
  unfold voteFromWire
  cases env.utxoInfo w.utxo <;> rfl

theorem matchesVinPubKey_congr (v1 v2 : Vote) (vin : TxIn)
    (h : v1.pubkeyId = v2.pubkeyId) :
    Governance.matchesVinPubKey v1 vin = Governance.matchesVinPubKey v2 vin := by
  unfold Governance.matchesVinPubKey
  cases vin.pubkeyId with
  | none => rfl
  | some kid => rw [h]

/-! ### Per-candidate step lemmas -/

theorem stepV_hashMem_mono {k : Nat} (g : GovState) (env : Env)
    (params : ConsensusParams) (btime : Int) (bi : Option Int)
    (vs : List Vote) (cand : Tx × Nat × GovPayload) (h : hashMemV k vs) :
    hashMemV k (dataFromBlockStepV g env params btime bi vs cand) := by
  rcases cand with ⟨tx, n, pl⟩
  cases pl with
  | propPayload p => exact h
  | votePayload w =>
    simp only [dataFromBlockStepV]
    split
    · split
      · exact h
      · split
        · exact mergeVote_hashMem_mono _ h
        · exact h
    · exact h

theorem stepP_hashMem_mono {k : Nat} (env : Env) (params : ConsensusParams)
    (bi : Option Int) (ps : List Proposal) (cand : Tx × Nat × GovPayload)
    (h : hashMemP k ps) :
    hashMemP k (dataFromBlockStepP env params bi ps cand) := by
  rcases cand with ⟨tx, n, pl⟩
  cases pl with
  | votePayload w => exact h
  | propPayload pw =>
    simp only [dataFromBlockStepP]
    split
    · split
      · exact setInsertProposal_hashMem_mono _ h
      · exact h
    · exact h

theorem blockConnectedVoteStep_cases (ps1 : List (Nat × Proposal))
    (m : List (Nat × Vote)) (v : Vote) :
    blockConnectedVoteStep ps1 m v = m ∨
      ∃ w, blockConnectedVoteStep ps1 m v = mapInsert m v.getHash w := by
  unfold blockConnectedVoteStep
  split
  · exact Or.inl rfl
  · split
    · split
      · exact Or.inr ⟨v, rfl⟩
      · split
        · exact Or.inr ⟨v, rfl⟩
        · exact Or.inl rfl
    · exact Or.inr ⟨v, rfl⟩

/-! ### Hash-set transfer between cutoff-enabled and cutoff-disabled
extraction (connect vs disconnect) -/

theorem foldV_hash_transfer (g g' : GovState) (env : Env)
    (params : ConsensusParams) (btime h : Int) :
    ∀ (cands : List (Tx × Nat × GovPayload)) (vs1 vs2 : List Vote),
    (∀ k, hashMemV k vs1 → hashMemV k vs2) →
    ∀ k, hashMemV k (cands.foldl (dataFromBlockStepV g env params btime (some h)) vs1) →
    hashMemV k (cands.foldl (dataFromBlockStepV g' env params btime none) vs2) := by
  intro cands
  induction cands with
  | nil =>
    intro vs1 vs2 hsub k hk
    exact hsub k hk
  | cons c t ih =>
    intro vs1 vs2 hsub k hk
    rw [List.foldl_cons] at hk ⊢
    apply ih _ _ _ k hk
    intro k2 hk2
    rcases c with ⟨tx, n, pl⟩
    cases pl with
    | propPayload p => exact hsub k2 hk2
    | votePayload w =>
      by_cases hguard : (w.version == NETWORK_VERSION && w.type == VOTE) = true
      · simp only [dataFromBlockStepV, hguard, if_pos] at hk2
        by_cases hrej : (!((voteFromWire env w ⟨tx.txid, n⟩ btime
              ((some h).getD 0)).isValid env params) ||
            !(Governance.meetsCutoffVote g (voteFromWire env w ⟨tx.txid, n⟩ btime
              ((some h).getD 0)) h params)) = true
        · rw [if_pos hrej] at hk2
          exact stepV_hashMem_mono _ _ _ _ _ _ _ (hsub k2 hk2)
        · rw [if_neg hrej] at hk2
          simp only [Bool.or_eq_true, Bool.not_eq_true', not_or,
            Bool.not_eq_false] at hrej
          by_cases hvin : tx.vin.any (fun vin =>
              Governance.matchesVinPubKey (voteFromWire env w ⟨tx.txid, n⟩ btime
                ((some h).getD 0)) vin) = true
          · rw [if_pos hvin] at hk2
            rcases mergeVote_hashMem_cases hk2 with hold | hnew
            · exact stepV_hashMem_mono _ _ _ _ _ _ _ (hsub k2 hold)
            · have hpk := voteFromWire_pubkeyId env w (⟨tx.txid, n⟩ : OutPoint)
                btime ((some h).getD 0)
              have hpk2 := voteFromWire_pubkeyId env w (⟨tx.txid, n⟩ : OutPoint)
                btime ((none : Option Int).getD 0)
              have hvalid2 : (voteFromWire env w ⟨tx.txid, n⟩ btime
                  ((none : Option Int).getD 0)).isValid env params = true := by
                rw [← voteFromWire_isValid env params w ⟨tx.txid, n⟩ ⟨tx.txid, n⟩
                  btime btime ((some h).getD 0) ((none : Option Int).getD 0)]
                exact hrej.1
              have hvin2 : tx.vin.any (fun vin =>
                  Governance.matchesVinPubKey (voteFromWire env w ⟨tx.txid, n⟩ btime
                    ((none : Option Int).getD 0)) vin) = true := by
                have hcongr : ∀ vin : TxIn,
                    Governance.matchesVinPubKey (voteFromWire env w ⟨tx.txid, n⟩ btime
                      ((none : Option Int).getD 0)) vin =
                    Governance.matchesVinPubKey (voteFromWire env w ⟨tx.txid, n⟩ btime
                      ((some h).getD 0)) vin := by
                  intro vin
                  exact matchesVinPubKey_congr _ _ vin (by rw [hpk2, hpk])
                simp only [hcongr]
                exact hvin
              simp only [dataFromBlockStepV, hguard, if_pos, hvalid2,
                Bool.not_true, Bool.false_or, Bool.false_eq_true, if_false,
                hvin2, if_true]
              rw [hnew]
              rw [voteFromWire_getHash env w ⟨tx.txid, n⟩ ⟨tx.txid, n⟩ btime btime
                ((some h).getD 0) ((none : Option Int).getD 0)]
              exact mergeVote_hashMem_self _ _
          · rw [if_neg hvin] at hk2
            exact stepV_hashMem_mono _ _ _ _ _ _ _ (hsub k2 hk2)
      · simp only [dataFromBlockStepV, hguard, Bool.false_eq_true, if_false] at hk2
        exact stepV_hashMem_mono _ _ _ _ _ _ _ (hsub k2 hk2)

theorem foldP_hash_transfer (env : Env) (params : ConsensusParams) (h : Int) :
    ∀ (cands : List (Tx × Nat × GovPayload)) (ps1 ps2 : List Proposal),
    (∀ k, hashMemP k ps1 → hashMemP k ps2) →
    ∀ k, hashMemP k (cands.foldl (dataFromBlockStepP env params (some h)) ps1) →
    hashMemP k (cands.foldl (dataFromBlockStepP env params none) ps2) := by
  intro cands
  induction cands with
  | nil =>
    intro ps1 ps2 hsub k hk
    exact hsub k hk
  | cons c t ih =>
    intro ps1 ps2 hsub k hk
    rw [List.foldl_cons] at hk ⊢
    apply ih _ _ _ k hk
    intro k2 hk2
    rcases c with ⟨tx, n, pl⟩
    cases pl with
    | votePayload w => exact hsub k2 hk2
    | propPayload pw =>
      by_cases hguard : (pw.version == NETWORK_VERSION && pw.type == PROPOSAL) = true
      · simp only [dataFromBlockStepP, hguard, if_pos] at hk2
        by_cases hacc : (({ pw with blockNumber := (some h : Option Int).getD 0 }
              : Proposal).isValid env params &&
            Governance.meetsCutoffProposal
              { pw with blockNumber := (some h : Option Int).getD 0 } h params) = true
        · rw [if_pos hacc] at hk2
          rcases setInsertProposal_hashMem_cases hk2 with hold | hnew
          · exact stepP_hashMem_mono _ _ _ _ _ (hsub k2 hold)
          · have hvalid2 : (({ pw with blockNumber := ((none : Option Int)).getD 0 }
                : Proposal).isValid env params && true) = true := by
              have : ({ pw with blockNumber := ((none : Option Int)).getD 0 }
                  : Proposal).isValid env params =
                  ({ pw with blockNumber := (some h : Option Int).getD 0 }
                  : Proposal).isValid env params := rfl
              have hacc2 := hacc
              simp only [Bool.and_eq_true] at hacc2
              rw [Bool.and_true, this]
              exact hacc2.1
            simp only [dataFromBlockStepP, hguard, if_pos, hvalid2, if_true]
            have hsame : ({ pw with blockNumber := ((none : Option Int)).getD 0 }
                : Proposal).getHash =
                ({ pw with blockNumber := (some h : Option Int).getD 0 }
                : Proposal).getHash := rfl
            rw [hnew, ← hsame]
            exact setInsertProposal_hashMem_self _ _
        · rw [if_neg hacc] at hk2
          exact stepP_hashMem_mono _ _ _ _ _ (hsub k2 hk2)
      · simp only [dataFromBlockStepP, hguard, Bool.false_eq_true, if_false] at hk2
        exact stepP_hashMem_mono _ _ _ _ _ (hsub k2 hk2)

/-! ### Tally summation lemmas -/

theorem foldl_tally_add (ts : List Tally) (f : Tally) :
    ts.foldl Tally.add f =
      { cyes := f.cyes + (ts.map Tally.cyes).sum,
        cno := f.cno + (ts.map Tally.cno).sum,
        cabstain := f.cabstain + (ts.map Tally.cabstain).sum,
        yes := f.yes + (ts.map Tally.yes).sum,
        no := f.no + (ts.map Tally.no).sum,
        abstain := f.abstain + (ts.map Tally.abstain).sum } := by
  induction ts generalizing f with
  | nil => simp
  | cons a t ih =>
    rw [List.foldl_cons, ih]
    simp only [Tally.add, List.map_cons, List.sum_cons, Tally.mk.injEq]
    refine ⟨by omega, by omega, by omega, by omega, by omega, by omega⟩

theorem getTallyStep_preserves_div (params : ConsensusParams)
    (uvd : List (Nat × List Vote)) :
    ∀ (items : List (Nat × List Vote)) (acc : List Vote × List Tally),
    (∀ t ∈ acc.2, t.yes = Int.tdiv t.cyes params.voteBalance ∧
      t.no = Int.tdiv t.cno params.voteBalance ∧
      t.abstain = Int.tdiv t.cabstain params.voteBalance) →
    ∀ t ∈ (items.foldl (getTallyStep params uvd) acc).2,
      t.yes = Int.tdiv t.cyes params.voteBalance ∧
      t.no = Int.tdiv t.cno params.voteBalance ∧
      t.abstain = Int.tdiv t.cabstain params.voteBalance := by
  intro items
  induction items with
  | nil =>
    intro acc hacc
    exact hacc
  | cons it rest ih =>
    intro acc hacc
    rw [List.foldl_cons]
    apply ih
    intro t2 ht2
    simp only [getTallyStep] at ht2
    split at ht2
    · exact hacc t2 ht2
    · simp only at ht2
      rcases List.mem_append.mp ht2 with hin | hone
      · exact hacc t2 hin
      · simp only [List.mem_singleton] at hone
        subst hone
        exact ⟨rfl, rfl, rfl⟩

theorem getTallies_div (proposal : Nat) (votes : List Vote)
    (params : ConsensusParams) :
    ∀ t ∈ Governance.getTallies proposal votes params,
      t.yes = Int.tdiv t.cyes params.voteBalance ∧
      t.no = Int.tdiv t.cno params.voteBalance ∧
      t.abstain = Int.tdiv t.cabstain params.voteBalance := by
  unfold Governance.getTallies
  apply getTallyStep_preserves_div
  intro t ht
  simp at ht

/-! ### Component equations for the chain listener -/

theorem blockConnected_proposals (g : GovState) (env : Env)
    (params : ConsensusParams) (block : Block) (h : Int) :
    (Governance.BlockConnected g env params block h).proposals =
      ((blockCandidates block).foldl (dataFromBlockStepP env params (some h)) []).foldl
        (fun m p => mapInsert m p.getHash p) g.proposals := by
  unfold Governance.BlockConnected
  rw [dataFromBlock_eq_pair]

theorem blockConnected_votes (g : GovState) (env : Env)
    (params : ConsensusParams) (block : Block) (h : Int) :
    (Governance.BlockConnected g env params block h).votes =
      (((blockCandidates block).foldl
          (dataFromBlockStepV g env params block.blockTime (some h)) []).foldl
        (blockConnectedVoteStep
          (((blockCandidates block).foldl (dataFromBlockStepP env params (some h)) []).foldl
            (fun m p => mapInsert m p.getHash p) g.proposals))
        g.votes).filter
        (fun kv => !((blockPrevouts block).contains kv.2.utxo)) := by
  unfold Governance.BlockConnected
  rw [dataFromBlock_eq_pair]

theorem blockDisconnected_proposals (g : GovState) (env : Env)
    (params : ConsensusParams) (block : Block) :
    (Governance.BlockDisconnected g env params block).proposals =
      ((blockCandidates block).foldl (dataFromBlockStepP env params none) []).foldl
        (fun m p => mapErase m p.getHash) g.proposals := by
  unfold Governance.BlockDisconnected
  rw [dataFromBlock_eq_pair]

theorem blockDisconnected_votes (g : GovState) (env : Env)
    (params : ConsensusParams) (block : Block) :
    (Governance.BlockDisconnected g env params block).votes =
      ((blockCandidates block).foldl
          (dataFromBlockStepV g env params block.blockTime none) []).foldl
        (fun m v => mapErase m v.getHash) g.votes := by
  unfold Governance.BlockDisconnected
  rw [dataFromBlock_eq_pair]

/-! ### Claim theorems -/

/-- Claim C1 (code bug): `c1Block` holds two valid votes with equal
`getHash`; the second has the strictly larger `sigHash`, yet
`dataFromBlock` returns the first (NO-selector) vote — the
`votesRet.insert` in the larger-sigHash branch is a `std::set` no-op —
and the store ends with that smaller-sigHash vote after the block
connects, contrary to the documented larger-sigHash tie-break. -/
theorem dataFromBlock_tiebreak_keeps_first :
    (voteFromWire exEnv c1w0 ⟨40, 0⟩ 1 3).isValid exEnv exParams = true ∧
    (voteFromWire exEnv c1w1 ⟨40, 1⟩ 1 3).isValid exEnv exParams = true ∧
    (voteFromWire exEnv c1w1 ⟨40, 1⟩ 1 3).getHash =
      (voteFromWire exEnv c1w0 ⟨40, 0⟩ 1 3).getHash ∧
    (voteFromWire exEnv c1w0 ⟨40, 0⟩ 1 3).sigHash <
      (voteFromWire exEnv c1w1 ⟨40, 1⟩ 1 3).sigHash ∧
    (Governance.dataFromBlock c1Store exEnv exParams c1Block (some 3)).2.map
      Vote.vote = [NO] ∧
    (mapLookup (Governance.BlockConnected c1Store exEnv exParams c1Block 3).votes
      (voteFromWire exEnv c1w0 ⟨40, 0⟩ 1 3).getHash).map Vote.vote = some NO := by
  decide

/-- Claim C2 (code bug): `BlockConnected` applies the sigHash tie-break
whenever the incoming time is not strictly greater.  Here the stored vote
has time 2, the incoming change has time 1 (strictly older) and a larger
`sigHash`, and the store nevertheless ends with the incoming vote —
contradicting the replace-only-on-newer-time (or equal-time) rule. -/
theorem blockConnected_replaces_despite_older_time :
    c2Exist.time = 2 ∧
    (Governance.dataFromBlock c2Store exEnv exParams c2Block (some 3)).2.map
      Vote.time = [1] ∧
    c2Exist.sigHash < (voteFromWire exEnv c1w1 ⟨41, 0⟩ 1 3).sigHash ∧
    c2Exist.getHash = (voteFromWire exEnv c1w1 ⟨41, 0⟩ 1 3).getHash ∧
    (mapLookup (Governance.BlockConnected c2Store exEnv exParams c2Block 3).votes
      c2Exist.getHash).map (fun v => (v.vote, v.time)) = some (YES, 1) := by
  decide

/-- Claim C3 counterexample: with a positive `voteBalance` of 100 and two
unlinked identities voting YES with 150 each, `getTally` returns
`cyes = 300` but `yes = 2 ≠ 300 / 100 = 3`: the integer counts are not
the division of the final summed amounts. -/
theorem getTally_not_global_division :
    (0 : Int) < exParams.voteBalance ∧
    (Governance.getTally 7 [c3v1, c3v2] exParams).cyes = 300 ∧
    (Governance.getTally 7 [c3v1, c3v2] exParams).yes = 2 ∧
    (Governance.getTally 7 [c3v1, c3v2] exParams).yes ≠
      Int.tdiv (Governance.getTally 7 [c3v1, c3v2] exParams).cyes
        exParams.voteBalance := by
  decide

/-- Claim C3 (amended): the `c*` outputs of `getTally` are the sums of
the per-identity-group summed amounts, and the integer counts are the
sums of the PER-GROUP integer divisions `c*_group / voteBalance` — not
the division of the final sums. -/
theorem getTally_sums_group_tallies (proposal : Nat) (votes : List Vote)
    (params : ConsensusParams) :
    Governance.getTally proposal votes params =
      { cyes := ((Governance.getTallies proposal votes params).map Tally.cyes).sum,
        cno := ((Governance.getTallies proposal votes params).map Tally.cno).sum,
        cabstain := ((Governance.getTallies proposal votes params).map
          Tally.cabstain).sum,
        yes := ((Governance.getTallies proposal votes params).map
          (fun t => Int.tdiv t.cyes params.voteBalance)).sum,
        no := ((Governance.getTallies proposal votes params).map
          (fun t => Int.tdiv t.cno params.voteBalance)).sum,
        abstain := ((Governance.getTallies proposal votes params).map
          (fun t => Int.tdiv t.cabstain params.voteBalance)).sum } := by
  have hdiv := getTallies_div proposal votes params
  have hyes : (Governance.getTallies proposal votes params).map Tally.yes =
      (Governance.getTallies proposal votes params).map
        (fun t => Int.tdiv t.cyes params.voteBalance) :=
    List.map_congr_left (fun t ht => (hdiv t ht).1)
  have hno : (Governance.getTallies proposal votes params).map Tally.no =
      (Governance.getTallies proposal votes params).map
        (fun t => Int.tdiv t.cno params.voteBalance) :=
    List.map_congr_left (fun t ht => (hdiv t ht).2.1)
  have habstain : (Governance.getTallies proposal votes params).map Tally.abstain =
      (Governance.getTallies proposal votes params).map
        (fun t => Int.tdiv t.cabstain params.voteBalance) :=
    List.map_congr_left (fun t ht => (hdiv t ht).2.2)
  unfold Governance.getTally
  rw [foldl_tally_add, ← hyes, ← hno, ← habstain]
  simp

/-- Claim C4 counterexample: a proposal whose `superblock` is 0 passes
`Proposal::isValid` (the check is only `superblock % interval != 0`, and
`0 % interval == 0`), even though such a proposal `isNull`. -/
theorem proposal_isValid_accepts_superblock_zero :
    Proposal.isValid exEnv exParams c4Prop = true ∧
    c4Prop.superblock = 0 ∧ c4Prop.isNull = true := by
  decide

/-- Claim C4 (amended): `Proposal::isValid` only requires the superblock
to be divisible by the consensus interval; any multiple (including 0)
passes the superblock check. -/
theorem proposal_isValid_superblock_multiple (env : Env)
    (params : ConsensusParams) (p : Proposal)
    (h : Proposal.isValid env params p = true) :
    p.superblock % params.superblock = 0 := by
  unfold Proposal.isValid at h
  simp only [Bool.and_eq_true, beq_iff_eq, decide_eq_true_eq] at h
  exact h.1.1.1.1.1.2

/-- Witness for the amended C4 theorem at a concrete valid proposal. -/
theorem proposal_isValid_superblock_multiple_witness :
    Proposal.isValid exEnv exParams c4ValidProp = true ∧
    c4ValidProp.superblock % exParams.superblock = 0 :=
  ⟨by decide, proposal_isValid_superblock_multiple exEnv exParams c4ValidProp
    (by decide)⟩

/-- Claim C5: after `BlockConnected`, no vote remains in the store whose
utxo equals any input prevout of any transaction of the block (the
removal is the final step of the single `BlockConnected` transition,
which models the one critical section of the source). -/
theorem blockConnected_removes_spent_utxo_votes (g : GovState) (env : Env)
    (params : ConsensusParams) (block : Block) (height : Int) (k : Nat)
    (v : Vote)
    (h : mapLookup (Governance.BlockConnected g env params block height).votes k =
      some v) :
    (blockPrevouts block).contains v.utxo = false := by
  rw [blockConnected_votes] at h
  have hmem := mapLookup_mem h
  have hf := (List.mem_filter.mp hmem).2
  simpa using hf

/-- Witness for C5 at a concrete store and (empty) block. -/
theorem blockConnected_removes_spent_utxo_votes_witness :
    mapLookup (Governance.BlockConnected c5Store exEnv exParams {} 3).votes 1 =
      some c5v ∧
    (blockPrevouts {}).contains c5v.utxo = false :=
  ⟨by decide,
   blockConnected_removes_spent_utxo_votes c5Store exEnv exParams {} 3 1 c5v
     (by decide)⟩

/-- Claim C6: changing only the `vote` selector leaves `Vote::getHash`
unchanged (the selector is excluded from the hash stream) and changes
`Vote::sigHash` (the digest model is injective on the streamed fields, as
the claim assumes of the hash function). -/
theorem vote_hash_excludes_selector (v : Vote) (w : Nat) (hw : w ≠ v.vote) :
    ({ v with vote := w } : Vote).getHash = v.getHash ∧
    ({ v with vote := w } : Vote).sigHash ≠ v.sigHash := by
  refine ⟨rfl, ?_⟩
  intro hEq
  unfold Vote.sigHash at hEq
  have h1 := (Nat.pair_eq_pair.mp hEq).2
  have h2 := (Nat.pair_eq_pair.mp h1).2
  have h3 := (Nat.pair_eq_pair.mp h2).2
  have h4 := (Nat.pair_eq_pair.mp h3).1
  exact hw h4

/-- Witness for C6 at a concrete vote and changed selector. -/
theorem vote_hash_excludes_selector_witness :
    ({ c6v with vote := NO } : Vote).getHash = c6v.getHash ∧
    ({ c6v with vote := NO } : Vote).sigHash ≠ c6v.sigHash :=
  vote_hash_excludes_selector c6v NO (by decide)

/-- Claim C8: the vote cutoff check of `meetsCutoff` is monotone
downward in the candidate block height — acceptance at height `h`
implies acceptance at any `h' < h` (same store, so the same referenced
proposal exists). -/
theorem meetsCutoffVote_monotone (g : GovState) (params : ConsensusParams)
    (v : Vote) (h h' : Int) (hlt : h' < h)
    (hc : Governance.meetsCutoffVote g v h params = true) :
    Governance.meetsCutoffVote g v h' params = true := by
  simp only [Governance.meetsCutoffVote] at hc ⊢
  split at hc
  · exact absurd hc (by simp)
  · split
    · rename_i hn1 hn2
      exact absurd hn2 hn1
    · simp only [decide_eq_true_eq] at hc ⊢
      omega

/-- Witness for C8 at concrete heights 3 and 2 against the stored
proposal with superblock 20. -/
theorem meetsCutoffVote_monotone_witness :
    (2 : Int) < 3 ∧
    Governance.meetsCutoffVote c1Store c8v 3 exParams = true ∧
    Governance.meetsCutoffVote c1Store c8v 2 exParams = true :=
  ⟨by decide, by decide,
   meetsCutoffVote_monotone c1Store exParams c8v 3 2 (by decide) (by decide)⟩

/-- Claim C9: `getProposal` on an absent hash returns a
default-constructed proposal (which `isNull`, superblock 0) and leaves
the store unchanged; `getVote` on an absent hash returns a default vote
whose utxo is null. -/
theorem getProposal_getVote_absent_default (g : GovState) (hp hv : Nat)
    (h1 : mapLookup g.proposals hp = none)
    (h2 : mapLookup g.votes hv = none) :
    Governance.getProposal g hp = ({}, g) ∧ (({} : Proposal).isNull = true) ∧
    Governance.getVote g hv = ({}, g) ∧ (({} : Vote).utxo.IsNull = true) := by
  have c1 := mapLookup_none_mapCount g.proposals hp h1
  have c2 := mapLookup_none_mapCount g.votes hv h2
  refine ⟨?_, by decide, ?_, by decide⟩
  · unfold Governance.getProposal
    rw [c1]
    simp
  · unfold Governance.getVote
    rw [c2]
    simp

/-- Witness for C9 at the empty store. -/
theorem getProposal_getVote_absent_default_witness :
    Governance.getProposal {} 5 = ({}, ({} : GovState)) ∧
    (({} : Proposal).isNull = true) ∧
    Governance.getVote {} 5 = ({}, ({} : GovState)) ∧
    (({} : Vote).utxo.IsNull = true) :=
  getProposal_getVote_absent_default {} 5 5 rfl rfl

/-- Claim C10: `voteTypeToString` always leaves the `valid` out-flag set
to true — the trailing unconditional `if (valid) *valid = true;`
overwrites the failure report — and out-of-range selectors yield the
empty string. -/
theorem voteTypeToString_always_sets_valid :
    ∀ (t : Nat) (b : Bool), (voteTypeToString t b).2 = true ∧
      (ABSTAIN < t → (voteTypeToString t b).1 = "") := by
  intro t b
  refine ⟨rfl, ?_⟩
  intro ht
  have ht' : 2 < t := ht
  have h1 : (t == 1) = false := by
    rw [beq_eq_false_iff_ne]
    omega
  have h0 : (t == 0) = false := by
    rw [beq_eq_false_iff_ne]
    omega
  have h2 : (t == 2) = false := by
    rw [beq_eq_false_iff_ne]
    omega
  simp [voteTypeToString, YES, NO, ABSTAIN, h1, h0, h2]

/-- Witness for C10 at the out-of-range selector 5. -/
theorem voteTypeToString_always_sets_valid_witness :
    (voteTypeToString 5 false).2 = true ∧ (voteTypeToString 5 false).1 = "" :=
  ⟨(voteTypeToString_always_sets_valid 5 false).1,
   (voteTypeToString_always_sets_valid 5 false).2 (by decide)⟩

/-- Claim C7: connect-then-disconnect of the same block (against the
same external environment) removes every object the connect introduced:
any proposal or vote key absent before `BlockConnected(B)` and present
after it is absent again after `BlockDisconnected(B)`.  Disconnect
re-extracts with the cutoff disabled, so its erase pass covers at least
the hashes the connect pass inserted. -/
theorem blockConnected_blockDisconnected_reorg (g : GovState) (env : Env)
    (params : ConsensusParams) (block : Block) (h : Int) (k : Nat) :
    (mapLookup g.proposals k = none →
      mapLookup (Governance.BlockConnected g env params block h).proposals k ≠ none →
      mapLookup (Governance.BlockDisconnected
        (Governance.BlockConnected g env params block h) env params block).proposals
        k = none) ∧
    (mapLookup g.votes k = none →
      mapLookup (Governance.BlockConnected g env params block h).votes k ≠ none →
      mapLookup (Governance.BlockDisconnected
        (Governance.BlockConnected g env params block h) env params block).votes
        k = none) := by
  constructor
  · intro h0 h1
    rw [blockConnected_proposals] at h1
    rcases foldl_insertLike_lookup Proposal.getHash
        (fun m p => mapInsert m p.getHash p)
        (fun m p => Or.inr ⟨p, rfl⟩) _ _ k h1 with hold | hnew
    · exact absurd h0 hold
    · have htrans := foldP_hash_transfer env params h (blockCandidates block)
        [] [] (fun k2 hk2 => hk2) k hnew
      rw [blockDisconnected_proposals]
      exact foldl_mapErase_hit Proposal.getHash _ _ k htrans
  · intro h0 h1
    rw [blockConnected_votes] at h1
    obtain ⟨v, hv⟩ := mapLookup_ne_none_iff.mp h1
    have hin := (List.mem_filter.mp hv).1
    have h1' : mapLookup (((blockCandidates block).foldl
        (dataFromBlockStepV g env params block.blockTime (some h)) []).foldl
        (blockConnectedVoteStep
          (((blockCandidates block).foldl (dataFromBlockStepP env params (some h)) []).foldl
            (fun m p => mapInsert m p.getHash p) g.proposals))
        g.votes) k ≠ none :=
      mapLookup_ne_none_iff.mpr ⟨v, hin⟩
    rcases foldl_insertLike_lookup Vote.getHash
        (blockConnectedVoteStep
          (((blockCandidates block).foldl (dataFromBlockStepP env params (some h)) []).foldl
            (fun m p => mapInsert m p.getHash p) g.proposals))
        (fun m v2 => blockConnectedVoteStep_cases _ m v2) _ _ k h1' with hold | hnew
    · exact absurd h0 hold
    · have htrans := foldV_hash_transfer g
        (Governance.BlockConnected g env params block h) env params
        block.blockTime h (blockCandidates block) [] []
        (fun k2 hk2 => hk2) k hnew
      rw [blockDisconnected_votes]
      exact foldl_mapErase_hit Vote.getHash _ _ k htrans

/-- Witness for C7: the proposal introduced by `c7Block` is present
after connect and gone after the matching disconnect. -/
theorem blockConnected_blockDisconnected_reorg_witness :
    mapLookup ({} : GovState).proposals c7Prop.getHash = none ∧
    mapLookup (Governance.BlockConnected {} exEnv exParams c7Block 3).proposals
      c7Prop.getHash ≠ none ∧
    mapLookup (Governance.BlockDisconnected
      (Governance.BlockConnected {} exEnv exParams c7Block 3) exEnv exParams
      c7Block).proposals c7Prop.getHash = none :=
  ⟨rfl, by decide,
   (blockConnected_blockDisconnected_reorg {} exEnv exParams c7Block 3
     c7Prop.getHash).1 rfl (by decide)⟩

end gov
